import Mathlib

/-!
Shallow embedding of the cortex cell/manager/link subsystem
(`src/cortex/__init__.py`, `src/cortex/models/cell.py`).

Python dictionaries (`OrderedDict` and plain `dict`) are modelled as
association lists that keep insertion order: an update of an existing key
replaces the value in place, a new key is appended.  Python values that can
appear in a cell argument record are modelled by `PyVal`; `Link` objects are
referenced by their index in the manager's link list (Python compares them by
identity, and every link object the manager handles is an element of that
list).  Exceptions are modelled with `Except Err`.
-/

/-- Python exception kinds raised by the embedded code. -/
inductive Err where
  | keyError (msg : String)
  | valueError (msg : String)
  | typeError (msg : String)
  | attributeError (msg : String)
deriving Repr, DecidableEq

/-- A Python value that can occur in a cell argument record, a dataset
table or a keyword-argument dictionary: `None`, an integer dimension, a
string, or a `Link` object (referenced by its index in the manager's link
list). -/
inductive PyVal where
  | none
  | nat (n : Nat)
  | str (s : String)
  | link (id : Nat)
deriving Repr, DecidableEq

/-- `d[k]` lookup in an insertion-ordered dictionary. -/
def dlookup {α : Type} (d : List (String × α)) (k : String) : Option α :=
  match d with
  | [] => Option.none
  | (k', v) :: t => if k' = k then some v else dlookup t k

/-- `k in d.keys()`. -/
def dmem {α : Type} (d : List (String × α)) (k : String) : Bool :=
  match d with
  | [] => false
  | (k', _) :: t => k' = k || dmem t k

/-- `d[k] = v`: replace in place if the key exists, append otherwise
(Python dict update semantics, insertion order preserved). -/
def dset {α : Type} (d : List (String × α)) (k : String) (v : α) :
    List (String × α) :=
  match d with
  | [] => [(k, v)]
  | (k', v') :: t => if k' = k then (k, v) :: t else (k', v') :: dset t k v

/-- Remove a key from a dictionary (used for Python keyword binding, where a
named parameter consumes its entry from `**kwargs`). -/
def dremove {α : Type} (d : List (String × α)) (k : String) :
    List (String × α) :=
  match d with
  | [] => []
  | (k', v') :: t => if k' = k then t else (k', v') :: dremove t k

/-- `d.get(k, None)`. -/
def pyGet (d : List (String × PyVal)) (k : String) : PyVal :=
  (dlookup d k).getD PyVal.none

theorem dlookup_dset_self {α : Type} (d : List (String × α)) (k : String)
    (v : α) : dlookup (dset d k v) k = some v := by
  induction d with
  | nil => simp [dset, dlookup]
  | cons h t ih =>
    obtain ⟨k', v'⟩ := h
    by_cases hk : k' = k
    · simp [dset, hk, dlookup]
    · simp [dset, hk, dlookup, ih]

theorem dlookup_dset_ne {α : Type} (d : List (String × α)) (k k' : String)
    (v : α) (h : k ≠ k') : dlookup (dset d k v) k' = dlookup d k' := by
  induction d with
  | nil => simp [dset, dlookup, h]
  | cons hd t ih =>
    obtain ⟨k₀, v₀⟩ := hd
    by_cases hk : k₀ = k
    · subst hk
      simp [dset, dlookup, h, ih]
    · simp only [dset, hk, if_false, dlookup, ih]

theorem dmem_iff_dlookup {α : Type} (d : List (String × α)) (k : String) :
    dmem d k = true ↔ (dlookup d k).isSome := by
  induction d with
  | nil => simp [dmem, dlookup]
  | cons hd t ih =>
    obtain ⟨k₀, v₀⟩ := hd
    by_cases hk : k₀ = k
    · simp [dmem, dlookup, hk]
    · simp [dmem, dlookup, hk, ih]

/-- Appending a fresh binding does not change existing lookups. -/
theorem dlookup_append_single {α : Type} (d : List (String × α))
    (k k' : String) (v : α) (h : (dlookup d k').isSome) :
    dlookup (d ++ [(k, v)]) k' = dlookup d k' := by
  induction d with
  | nil => simp [dlookup] at h
  | cons hd t ih =>
    obtain ⟨k₀, v₀⟩ := hd
    by_cases hk : k₀ = k'
    · simp [dlookup, hk]
    · simp [dlookup, hk] at h ⊢
      exact ih h

/-! ## Registry data model (`src/cortex/__init__.py`)

The class-level metadata a cell class carries (`C._dim_map`,
`C._distribution`, `C._dist_map`, `C._required`) is static data in the
source; a class is modelled as a record of that metadata.  `C._distribution`
is an attribute some concrete classes declare and the base class does not;
it is modelled as `Option String` (`Option.none` = `None`). -/

structure CellClass where
  dim_map : List (String × String)
  distribution : Option String
  dist_map : List (String × String)
  required : List String
deriving Repr, DecidableEq

/-- A registered dataset: `manager.datasets[name]` holds the declared
per-field dimension and distribution tables. -/
structure Dataset where
  dims : List (String × PyVal)
  distributions : List (String × PyVal)
deriving Repr, DecidableEq

/-- `Link.Node` (src/cortex/__init__.py lines 36-43): a non-dataset endpoint
of a link.  Constructed by `mkNode` below, which performs the
`key not in C._dim_map` check. -/
structure Node where
  C : CellClass
  link_key : String
  dim_key : String
  dist_key : Option String
deriving Repr, DecidableEq

/-- A `Link` object (src/cortex/__init__.py lines 35-134) after
construction: `value`/`distribution` are `PyVal.none` when unset, `nodes`
maps endpoint names to `Node` records. -/
structure Link where
  name : String
  value : PyVal
  distribution : PyVal
  nodes : List (String × Node)
deriving Repr, DecidableEq

/-- The `Manager` registry state (src/cortex/__init__.py lines 137-304).
Built cell instances are tracked by name (`cells.keys()`); the parameter
machinery of built cells is modelled separately in the `Cell` section
below. -/
structure Manager where
  cells : List String
  cell_args : List (String × List (String × PyVal))
  links : List Link
  datasets : List (String × Dataset)
  classes : List (String × CellClass)
deriving Repr, DecidableEq

/-! ## Manager.match_args (src/cortex/__init__.py lines 186-205) -/

/-- One iteration of the `for k, v in kwargs.iteritems()` loop body of
`Manager.match_args`:

    if k not in args.keys():
        if fail_on_mismatch: raise KeyError(...)   # Unknown-Argument
        else: args[k] = v
    if args[k] is not None and args[k] != v:
        raise ValueError(...)                      # Argument-Mismatch
-/
def matchStep (fail_on_mismatch : Bool) (args : List (String × PyVal))
    (k : String) (v : PyVal) : Except Err (List (String × PyVal)) :=
  let step1 : Except Err (List (String × PyVal)) :=
    if dmem args k then .ok args
    else if fail_on_mismatch then
      .error (.keyError "Requested key not found and cell already exists.")
    else .ok (dset args k v)
  match step1 with
  | .error e => .error e
  | .ok args' =>
    match dlookup args' k with
    | some w =>
      if w ≠ PyVal.none ∧ w ≠ v then
        .error (.valueError "Key already set and differs from requested value")
      else .ok args'
    | Option.none => .ok args'

/-- The `for k, v in kwargs.iteritems()` loop of `Manager.match_args`. -/
def matchLoop (fail_on_mismatch : Bool) (args : List (String × PyVal)) :
    List (String × PyVal) → Except Err (List (String × PyVal))
  | [] => .ok args
  | (k, v) :: rest =>
    match matchStep fail_on_mismatch args k v with
    | .error e => .error e
    | .ok args' => matchLoop fail_on_mismatch args' rest

/-- `Manager.match_args(cell_name, **kwargs)`
(src/cortex/__init__.py lines 186-205):

    fail_on_mismatch = bool(cell_name in self.cells.keys())
    if fail_on_mismatch and (cell_name not in self.cell_args):
        raise KeyError(...)
    else:
        self.cell_args[cell_name] = {}
    args = self.cell_args[cell_name]
    for k, v in kwargs.iteritems(): ...

Note the unconditional `self.cell_args[cell_name] = {}` in the `else`
branch: whenever no error is raised there, the pre-existing argument
record of `cell_name` is replaced by an empty one before the loop runs. -/
def matchArgs (cm : Manager) (cell_name : String)
    (kwargs : List (String × PyVal)) : Except Err Manager :=
  let fail_on_mismatch := cm.cells.contains cell_name
  if fail_on_mismatch && !(dmem cm.cell_args cell_name) then
    .error (.keyError "Cell args not found but cell already set")
  else
    match matchLoop fail_on_mismatch [] kwargs with
    | .error e => .error e
    | .ok args => .ok { cm with cell_args := dset cm.cell_args cell_name args }

/-! ## Link construction (src/cortex/__init__.py lines 35-115)

Python string helpers.  `splitDots` is `name.split('.')` and `joinDots` is
`'.'.join(parts)`, implemented by structural recursion over the character
list so that concrete instances reduce in the kernel. -/

def splitDotsAux : List Char → List Char → List String
  | [], acc => [String.mk acc.reverse]
  | c :: rest, acc =>
    if c = '.' then String.mk acc.reverse :: splitDotsAux rest []
    else splitDotsAux rest (c :: acc)

/-- `name.split('.')`. -/
def splitDots (s : String) : List String := splitDotsAux s.data []

/-- `'.'.join(parts)`. -/
def joinDots : List String → String
  | [] => ""
  | [s] => s
  | s :: rest => s ++ "." ++ joinDots rest

/-- `s.startswith('&')`. -/
def startsAmp (s : String) : Bool :=
  match s.data with
  | c :: _ => c = '&'
  | [] => false

/-- `s[1:]`. -/
def dropFirst (s : String) : String := String.mk s.data.tail

/-- `split_arg(arg)` with the default `idx=-1`
(src/cortex/__init__.py lines 52-56): the owner name is everything before
the last dot, the key the component after it. -/
def splitArg (arg : String) : String × String :=
  let s := splitDots arg
  (joinDots s.dropLast, joinDots (s.drop (s.length - 1)))

/-- `get_args(name)` inside `Link.__init__`
(src/cortex/__init__.py lines 58-67): classify an endpoint reference as a
dataset field (class slot `None`) or a cell argument (class resolved through
`cm.cell_args[name_]['cell_type']` and the manager's class table), else
raise `KeyError('Cell or data ... not found')`. -/
def getArgs (cm : Manager) (name : String) :
    Except Err (String × String × Option CellClass) :=
  if dmem cm.datasets ((splitDots name).headD "") then
    let p := splitArg name
    .ok (p.1, p.2, Option.none)
  else if dmem cm.cell_args (joinDots (splitDots name).dropLast) then
    let p := splitArg name
    match dlookup cm.cell_args p.1 with
    | Option.none => .error (.keyError "Cell or data not found")
    | some args =>
      match dlookup args "cell_type" with
      | some (PyVal.str ct) =>
        match dlookup cm.classes ct with
        | some C => .ok (p.1, p.2, some C)
        | Option.none => .error (.keyError "Unexpected cell subclass")
      | some _ => .error (.keyError "Unexpected cell subclass")
      | Option.none => .error (.keyError "cell_type")
  else .error (.keyError "Cell or data not found")

/-- `Cell.set_link_value(C, key, **kwargs)`
(src/cortex/models/cell.py lines 225-239):

    from .. import manager
    if key in C._dim_map.keys():
        value = kwargs.get(C._dim_map[key], None)
        if not isinstance(value, manager.link.Link) and value is not None:
            ...
    else:
        raise KeyError

`manager` is the `Manager` instance created at package import
(src/cortex/__init__.py line 307); it has no attribute `link` and the
class defines no `__getattr__`, so as soon as the `key in C._dim_map`
branch is taken, evaluating `manager.link` in the isinstance test raises
an uncaught `AttributeError` — the `kwargs.get` before it never raises,
and the return and `ValueError` lines below the test are unreachable.  A
key outside the dimension map raises the `KeyError` of line 239. -/
def setLinkValue (C : CellClass) (key : String)
    (_kwargs : List (String × PyVal)) : Except Err PyVal :=
  if dmem C.dim_map key then
    .error (.attributeError "Manager object has no attribute link")
  else .error (.keyError "set_link_value")

/-- `Cell.set_link_distribution(C, key, **kwargs)`
(src/cortex/models/cell.py lines 254-267): the body mirrors
`set_link_value`, including the `isinstance(value, manager.link.Link)`
test of line 262, so a key in `C._dist_map` raises the same uncaught
`AttributeError` from the dead `manager.link` dereference, and any other
key raises the `KeyError` of line 267. -/
def setLinkDistribution (C : CellClass) (key : String)
    (_kwargs : List (String × PyVal)) : Except Err PyVal :=
  if dmem C.dist_map key then
    .error (.attributeError "Manager object has no attribute link")
  else .error (.keyError "set_link_distribution")

/-- The call `C.set_link_distribution(**args)` made by `Link.__init__`
(src/cortex/__init__.py lines 99 and 103).  No positional `key` is passed,
so Python binds the required parameter `key` from `args["key"]` when that
entry exists (consuming it from the keyword dictionary) and raises
`TypeError` otherwise; a non-string `key` value is member of no
distribution map, giving the `KeyError` branch. -/
def setLinkDistributionCall (C : CellClass)
    (args : List (String × PyVal)) : Except Err PyVal :=
  match dlookup args "key" with
  | some (PyVal.str k) => setLinkDistribution C k (dremove args "key")
  | some _ => .error (.keyError "set_link_distribution")
  | Option.none =>
    .error (.typeError "set_link_distribution missing required argument key")

/-- `try: self.value = <r> except ValueError: pass`: a `ValueError` keeps
the previous value, any other exception propagates. -/
def tryVal (cur : PyVal) (r : Except Err PyVal) : Except Err PyVal :=
  match r with
  | .ok v => .ok v
  | .error (.valueError _) => .ok cur
  | .error e => .error e

/-- `t_class.set_link_value(t_key, **t_args)` where the class slot of a
dataset-classified endpoint is `None` (attribute access on `None` raises). -/
def setLinkValueOn (C : Option CellClass) (key : String)
    (kwargs : List (String × PyVal)) : Except Err PyVal :=
  match C with
  | Option.none => .error (.attributeError "NoneType has no attribute")
  | some C => setLinkValue C key kwargs

/-- `t_class.set_link_distribution(**t_args)` on an optional class slot. -/
def setLinkDistributionOn (C : Option CellClass)
    (args : List (String × PyVal)) : Except Err PyVal :=
  match C with
  | Option.none => .error (.attributeError "NoneType has no attribute")
  | some C => setLinkDistributionCall C args

/-- The cell/cell resolution block of `Link.__init__`
(src/cortex/__init__.py lines 87-105): target endpoint first, then source,
each wrapped in `try ... except ValueError: pass`, the last successful
assignment winning; first for `value`, then for `distribution`. -/
def linkResolveCells (cm : Manager)
    (f_name f_key : String) (f_class : Option CellClass)
    (t_name t_key : String) (t_class : Option CellClass) :
    Except Err (PyVal × PyVal) :=
  match dlookup cm.cell_args t_name with
  | Option.none => .error (.keyError "cell args")
  | some t_args =>
  match dlookup cm.cell_args f_name with
  | Option.none => .error (.keyError "cell args")
  | some f_args =>
  match tryVal PyVal.none (setLinkValueOn t_class t_key t_args) with
  | .error e => .error e
  | .ok v1 =>
  match tryVal v1 (setLinkValueOn f_class f_key f_args) with
  | .error e => .error e
  | .ok v2 =>
  match tryVal PyVal.none (setLinkDistributionOn t_class t_args) with
  | .error e => .error e
  | .ok d1 =>
  match tryVal d1 (setLinkDistributionOn f_class f_args) with
  | .error e => .error e
  | .ok d2 => .ok (v2, d2)

/-- The dataset branch of `Link.__init__`
(src/cortex/__init__.py lines 84-86): value and distribution are read from
the dataset's declared tables for the referenced field. -/
def linkResolveDataset (cm : Manager) (ds_name ds_key : String) :
    Except Err (PyVal × PyVal) :=
  match dlookup cm.datasets ds_name with
  | Option.none => .error (.keyError "dataset")
  | some ds =>
    match dlookup ds.dims ds_key with
    | Option.none => .error (.keyError "dims")
    | some v =>
      match dlookup ds.distributions ds_key with
      | Option.none => .error (.keyError "distributions")
      | some d => .ok (v, d)

/-- `Link.Node.__init__(C, key)` (src/cortex/__init__.py lines 36-43):
fails with `TypeError` when `key not in C._dim_map`, otherwise records the
class, the link key, `C._dim_map[key]` and `C._distribution`. -/
def mkNode (C : CellClass) (key : String) : Except Err Node :=
  match dlookup C.dim_map key with
  | Option.none => .error (.typeError "Class has no key")
  | some dk =>
    .ok { C := C, link_key := key, dim_key := dk, dist_key := C.distribution }

/-- Node construction on an optional class slot (`None` for a
dataset-classified endpoint: attribute access on `None` raises). -/
def mkNodeOn (C : Option CellClass) (key : String) : Except Err Node :=
  match C with
  | Option.none => .error (.attributeError "NoneType has no attribute")
  | some C => mkNode C key

/-- Tail of `Link.__init__` (src/cortex/__init__.py lines 107-115): fail
with `TypeError` if no value was resolved, register each endpoint whose
owner differs from the dataset endpoint as a `Node` (source first, then
target), and append the link to the manager's link list. -/
def linkFinish (cm : Manager) (f t : String)
    (f_name f_key : String) (f_class : Option CellClass)
    (t_name t_key : String) (t_class : Option CellClass)
    (dataset_name : Option String) (vd : Except Err (PyVal × PyVal)) :
    Except Err (Manager × Link) :=
  match vd with
  | .error e => .error e
  | .ok (v, d) =>
    if v = PyVal.none then
      .error (.typeError "Link requires a resolvable dimension")
    else
      match (if some f_name ≠ dataset_name then
               (mkNodeOn f_class f_key).map (fun n => dset [] f_name n)
             else .ok []) with
      | .error e => .error e
      | .ok nodes1 =>
        match (if some t_name ≠ dataset_name then
                 (mkNodeOn t_class t_key).map (fun n => dset nodes1 t_name n)
               else .ok nodes1) with
        | .error e => .error e
        | .ok nodes2 =>
          let l : Link := { name := f ++ "->" ++ t, value := v,
                            distribution := d, nodes := nodes2 }
          .ok ({ cm with links := cm.links ++ [l] }, l)

/-- `Link.__init__(cm, f, t)` (src/cortex/__init__.py lines 45-115):
classify both endpoints, reject a link between two datasets, resolve value
and distribution either from the single dataset endpoint's tables or by the
per-endpoint class protocol, then finish (node registration and appending
to the manager's link list).  Returns the updated manager together with the
constructed link. -/
def linkInit (cm : Manager) (f t : String) : Except Err (Manager × Link) :=
  match getArgs cm f with
  | .error e => .error e
  | .ok (f_name, f_key, f_class) =>
    match getArgs cm t with
    | .error e => .error e
    | .ok (t_name, t_key, t_class) =>
      if dmem cm.datasets f_name then
        if dmem cm.datasets t_name then
          .error (.valueError "Cannot link 2 datasets")
        else
          linkFinish cm f t f_name f_key f_class t_name t_key t_class
            (some f_name) (linkResolveDataset cm f_name f_key)
      else if dmem cm.datasets t_name then
        linkFinish cm f t f_name f_key f_class t_name t_key t_class
          (some t_name) (linkResolveDataset cm t_name t_key)
      else
        linkFinish cm f t f_name f_key f_class t_name t_key t_class
          Option.none
          (linkResolveCells cm f_name f_key f_class t_name t_key t_class)

/-! ## Manager.add_link (src/cortex/__init__.py lines 269-287) -/

/-- The body of the `for name, node in link.nodes.iteritems()` loop of
`Manager.add_link`, acting on one cell's argument record:

    if self.cell_args[name].get(node.dim_key, None) is None:
        self.cell_args[name][node.dim_key] = link
    dk = node.dist_key
    if dk is None: pass
    elif dk.startswith('&'): dk = dk[1:]
    else: dk = 'cell_type'
    if (self.cell_args[name].get(dk, None) is None
        and node.C._distribution is not None):
        self.cell_args[name][dk] = link

When `node.dist_key` is `None` the final condition is always false
(`node.C._distribution` is that same `None`), so no distribution argument
is written.  `distArgKey` is the
`elif dk.startswith('&'): dk = dk[1:] / else: dk = 'cell_type'`
resolution of the distribution argument name. -/
def distArgKey (d : String) : String :=
  if startsAmp d then dropFirst d else "cell_type"

def backfillArgs (linkId : Nat) (node : Node)
    (args : List (String × PyVal)) : List (String × PyVal) :=
  let args1 :=
    if pyGet args node.dim_key = PyVal.none then
      dset args node.dim_key (PyVal.link linkId)
    else args
  match node.dist_key with
  | Option.none => args1
  | some d =>
    if pyGet args1 (distArgKey d) = PyVal.none ∧
        node.C.distribution ≠ Option.none then
      dset args1 (distArgKey d) (PyVal.link linkId)
    else args1

/-- The `for name, node in link.nodes.iteritems()` loop of
`Manager.add_link`: dataset-named nodes are skipped, every other node
back-fills its cell's argument record. -/
def backfillLoop (linkId : Nat) :
    List (String × Node) → Manager → Except Err Manager
  | [], cm => .ok cm
  | (name, node) :: rest, cm =>
    if dmem cm.datasets name then backfillLoop linkId rest cm
    else
      match dlookup cm.cell_args name with
      | Option.none => .error (.keyError "cell args")
      | some args =>
        backfillLoop linkId rest
          { cm with
            cell_args := dset cm.cell_args name (backfillArgs linkId node args) }

/-- `Manager.add_link(f, t)` (src/cortex/__init__.py lines 269-287):
construct the link, then back-fill the argument records of its nodes.  The
link object written into the records is the one just appended to the
manager's link list, at index `cm.links.length`. -/
def addLink (cm : Manager) (f t : String) : Except Err Manager :=
  match linkInit cm f t with
  | .error e => .error e
  | .ok (cm1, l) => backfillLoop cm.links.length l.nodes cm1

/-! ## Link.query and Manager.build
(src/cortex/__init__.py lines 117-131 and 211-229) -/

/-- `Cell.get_link_value(C, link, key)` (src/cortex/models/cell.py lines
241-252). -/
def getLinkValue (C : CellClass) (l : Link) (key : String) :
    Except Err (String × PyVal) :=
  match dlookup C.dim_map key with
  | some dk =>
    if l.value = PyVal.none then .error (.valueError "get_link_value")
    else .ok (dk, l.value)
  | Option.none => .error (.keyError "get_link_value")

/-- `Link.query(name, key)` (src/cortex/__init__.py lines 117-131).  Note
that when `key` matches neither the dimension key nor `'cell_type'`, the
comparison `key == node.dist_key[1:]` subscripts `node.dist_key`, raising
`TypeError` when that attribute is `None`. -/
def linkQuery (l : Link) (name key : String) : Except Err PyVal :=
  match dlookup l.nodes name with
  | Option.none => .error (.keyError "Link does not have node")
  | some node =>
    if key = node.dim_key then
      match getLinkValue node.C l node.link_key with
      | .error e => .error e
      | .ok p =>
        if p.2 = PyVal.none then .error (.valueError "query")
        else .ok p.2
    else if key = "cell_type" then .ok l.distribution
    else
      match node.dist_key with
      | Option.none => .error (.typeError "NoneType is not subscriptable")
      | some dk =>
        if key = dropFirst dk then .ok l.distribution
        else .error (.keyError "Link does not support key")

/-- The link-dereferencing loop of `Manager.build_cell`
(src/cortex/__init__.py lines 223-227): every `Link`-valued argument is
replaced, in place, by `link.query(name, k)`. -/
def resolveLinkArgs (links : List Link) (name : String) :
    List (String × PyVal) → Except Err (List (String × PyVal))
  | [] => .ok []
  | (k, v) :: rest =>
    match v with
    | PyVal.link id =>
      match links[id]? with
      | some l =>
        match linkQuery l name k with
        | .error e => .error e
        | .ok value =>
          match resolveLinkArgs links name rest with
          | .error e => .error e
          | .ok rest' => .ok ((k, value) :: rest')
      | Option.none => .error (.keyError "link")
    | _ =>
      match resolveLinkArgs links name rest with
      | .error e => .error e
      | .ok rest' => .ok ((k, v) :: rest')

/-- `C.factory(name=name, **kwargs)` followed by cell registration
(src/cortex/models/cell.py lines 269-296 and src/cortex/__init__.py lines
292-304): fail with `TypeError` when a required constructor argument is
absent or `None`, otherwise register the built cell under `name`.  The
parameter machinery of the constructed instance is modelled separately in
the `Cell` section below; at the registry level the effect of a successful
factory call is that `name` becomes a built cell. -/
def factoryRegister (cm : Manager) (C : CellClass) (name : String)
    (kwargs : List (String × PyVal)) : Except Err Manager :=
  if C.required.all (fun r => pyGet kwargs r != PyVal.none) then
    .ok { cm with cells :=
            if cm.cells.contains name then cm.cells else cm.cells ++ [name] }
  else .error (.typeError "Required argument not provided")

/-- `Manager.build_cell(name)` (src/cortex/__init__.py lines 219-229):
look up the pending argument record, resolve the class from its
`cell_type`, dereference every `Link`-valued argument through
`link.query` (mutating the record in place), and call the class factory. -/
def buildCell (cm : Manager) (name : String) : Except Err Manager :=
  match dlookup cm.cell_args name with
  | Option.none => .error (.keyError "cell args")
  | some kwargs =>
    match dlookup kwargs "cell_type" with
    | some (PyVal.str ct) =>
      match dlookup cm.classes ct with
      | some C =>
        match resolveLinkArgs cm.links name kwargs with
        | .error e => .error e
        | .ok kwargs' =>
          factoryRegister
            { cm with cell_args := dset cm.cell_args name kwargs' }
            C name kwargs'
      | Option.none => .error (.keyError "Unexpected cell subclass")
    | some _ => .error (.keyError "Unexpected cell subclass")
    | Option.none => .error (.keyError "cell_type")

/-- The `for k, kwargs in self.cell_args.iteritems()` loop of
`Manager.build`: build, in registration order, every cell that is not in
the built-cell table at the moment it is reached. -/
def buildLoop : List String → Manager → Except Err Manager
  | [], cm => .ok cm
  | k :: rest, cm =>
    if cm.cells.contains k then buildLoop rest cm
    else
      match buildCell cm k with
      | .error e => .error e
      | .ok cm' => buildLoop rest cm'

/-- `Manager.build(name=None)` (src/cortex/__init__.py lines 211-217):

    if name is not None and name not in self.cells:
        self.build_cell(name)
    else:
        for k, kwargs in self.cell_args.iteritems():
            if k not in self.cells:
                self.build_cell(k)
-/
def build (cm : Manager) (name : Option String) : Except Err Manager :=
  match name with
  | some n =>
    if !(cm.cells.contains n) then buildCell cm n
    else buildLoop (cm.cell_args.map Prod.fst) cm
  | Option.none => buildLoop (cm.cell_args.map Prod.fst) cm

/-! ## Cell construction and parameter machinery
(src/cortex/models/cell.py)

Numeric array contents are irrelevant to the claims and are abstracted
away: a parameter group is a single array or a list of arrays (represented
by its length), and a `theano.shared` handle is identified by the `Nat` id
the manager allocated for it (Python compares handles by identity). -/

/-- A parameter group as produced by `init_params`: a single numpy array or
a list of arrays. -/
inductive PParam where
  | single
  | plist (len : Nat)
deriving Repr, DecidableEq

/-- A value stored into the cell's `__dict__` by `set_tparams`: one shared
handle, or the list built up for a list-valued group. -/
inductive HVal where
  | h (id : Nat)
  | hs (ids : List Nat)
deriving Repr, DecidableEq

mutual
/-- A built cell (src/cortex/models/cell.py, class `Cell`): its name, its
`params` dictionary, the component attributes bound by `set_components`
(`self.__dict__[key]` for `key in self.component_keys`), the three
parameter counts fixed by `__init__` (lines 192-207), and the
`param_keys` list and `__dict__` handle entries written by `set_tparams`.
Fields are positional: name, params, comps, n_params, n_component_params,
total_params, param_keys, handles. -/
inductive Cell where
  | mk (name : String) (params : List (String × PParam))
      (comps : List (String × CompVal))
      (n_params : Nat) (n_component_params : Nat) (total_params : Nat)
      (param_keys : List String) (handles : List (String × HVal))

/-- A component attribute value: `None`, a single sub-cell, or a list of
sub-cells. -/
inductive CompVal where
  | cnone
  | cone (c : Cell)
  | cmany (cs : List Cell)
end

def Cell.name : Cell → String
  | .mk n _ _ _ _ _ _ _ => n

def Cell.params : Cell → List (String × PParam)
  | .mk _ p _ _ _ _ _ _ => p

def Cell.comps : Cell → List (String × CompVal)
  | .mk _ _ c _ _ _ _ _ => c

def Cell.n_params : Cell → Nat
  | .mk _ _ _ np _ _ _ _ => np

def Cell.n_component_params : Cell → Nat
  | .mk _ _ _ _ ncp _ _ _ => ncp

def Cell.total_params : Cell → Nat
  | .mk _ _ _ _ _ tp _ _ => tp

def Cell.param_keys : Cell → List String
  | .mk _ _ _ _ _ _ pk _ => pk

def Cell.handles : Cell → List (String × HVal)
  | .mk _ _ _ _ _ _ _ h => h

/-- `'%d' % i` for the decimal rendering of a list index. -/
def digitChar (d : Nat) : Char := Char.ofNat (48 + d)

def natToStrAux : Nat → Nat → List Char
  | 0, _ => []
  | fuel + 1, n =>
    if n < 10 then [digitChar n]
    else natToStrAux fuel (n / 10) ++ [digitChar (n % 10)]

def natToStr (n : Nat) : String := String.mk (natToStrAux (n + 1) n)

/-- `'%s[%d]' % (k, i)`: the decorated key of one member of a list-valued
parameter group. -/
def idxKey (k : String) (i : Nat) : String := k ++ "[" ++ natToStr i ++ "]"

/-- Modelled from the spec: `utils.tools._p`, the fully-qualified-name
constructor, is imported by `cell.py` but its module is not under `src/`.
Spec section 4.3 step 7 gives the format `"<cell_name>.<param_key>"`. -/
def pName (a b : String) : String := a ++ "." ++ b

/-- The manager state the parameter machinery touches: the global `tparams`
table (fully-qualified name to shared handle) together with the allocator
for fresh handle identities (`theano.shared(...)` creates a new object). -/
structure TPState where
  tparams : List (String × Nat)
  next : Nat
deriving Repr, DecidableEq

/-- One registration against the global table, the shared core of both
branches of `Cell.set_tparams` (src/cortex/models/cell.py lines 377-398):

    if name not in self.manager.tparams.keys():
        tp = theano.shared(...); self.manager.tparams[name] = tp
    else:
        tp = self.manager.tparams[name]
-/
def registerName (st : TPState) (name : String) : Nat × TPState :=
  match dlookup st.tparams name with
  | some tp => (tp, st)
  | Option.none =>
    (st.next, { tparams := st.tparams ++ [(name, st.next)], next := st.next + 1 })

/-- The `for i, pp in enumerate(p)` inner loop of `set_tparams` for a
list-valued group: returns the handle list appended to `self.__dict__[k]`,
the decorated keys appended to `param_keys`, and the updated table. -/
def registerIdx (cname k : String) :
    List Nat → TPState → (List Nat × List String × TPState)
  | [], st => ([], [], st)
  | i :: rest, st =>
    let nm := pName cname (idxKey k i)
    let r := registerName st nm
    let rec_ := registerIdx cname k rest r.2
    (r.1 :: rec_.1, idxKey k i :: rec_.2.1, rec_.2.2)

/-- The `for k, p in self.params.iteritems()` loop of `Cell.set_tparams`
(src/cortex/models/cell.py lines 377-398): returns the `param_keys` list,
the `__dict__` handle entries, and the updated manager state. -/
def setTparamsGo (cname : String) :
    List (String × PParam) → TPState →
    (List String × List (String × HVal) × TPState)
  | [], st => ([], [], st)
  | (k, PParam.single) :: rest, st =>
    let r := registerName st (pName cname k)
    let rec_ := setTparamsGo cname rest r.2
    (k :: rec_.1, (k, HVal.h r.1) :: rec_.2.1, rec_.2.2)
  | (k, PParam.plist n) :: rest, st =>
    let g := registerIdx cname k (List.range n) st
    let rec_ := setTparamsGo cname rest g.2.2
    (g.2.1 ++ rec_.1, (k, HVal.hs g.1) :: rec_.2.1, rec_.2.2)

/-- `Cell.set_tparams()` (src/cortex/models/cell.py lines 369-398): resets
`param_keys` and materialises every parameter as a named shared handle,
reusing the handle already registered in the manager's global table under
the same fully-qualified name when there is one. -/
def setTparams (c : Cell) (st : TPState) : Cell × TPState :=
  let r := setTparamsGo c.name c.params st
  (Cell.mk c.name c.params c.comps c.n_params c.n_component_params
     c.total_params r.1 r.2.1, r.2.2)

/-- The `n_params` loop of `Cell.__init__`
(src/cortex/models/cell.py lines 192-197): a list-valued group counts by
its length, any other parameter counts one. -/
def countParams (params : List (String × PParam)) : Nat :=
  params.foldl
    (fun acc kv =>
      acc + match kv.2 with
            | PParam.single => 1
            | PParam.plist n => n)
    0

/-- The contribution of one component attribute to `n_component_params`
(src/cortex/models/cell.py lines 198-206): `None` components are skipped,
list-valued components contribute every member's `total_params`. -/
def CompVal.totalOf : CompVal → Nat
  | CompVal.cnone => 0
  | CompVal.cone c => c.total_params
  | CompVal.cmany cs => (cs.map Cell.total_params).sum

/-- The `n_component_params` loop of `Cell.__init__`
(src/cortex/models/cell.py lines 198-206). -/
def countComponentParams (comps : List (String × CompVal)) : Nat :=
  comps.foldl (fun acc kv => acc + kv.2.totalOf) 0

/-- The parameter-counting tail of `Cell.__init__`
(src/cortex/models/cell.py lines 192-208), applied to the state of the
cell after `set_components` and `init_params`: compute `n_params`,
`n_component_params` and `total_params`, then call `set_tparams`. -/
def initCell (name : String) (params : List (String × PParam))
    (comps : List (String × CompVal)) (st : TPState) : Cell × TPState :=
  let np := countParams params
  let ncp := countComponentParams comps
  setTparams (Cell.mk name params comps np ncp (np + ncp) [] []) st

/-- `params = [self.__dict__[k] for k in self.param_keys]`
(src/cortex/models/cell.py line 401): a `KeyError` escapes when a
`param_keys` entry is not present in the instance dictionary. -/
def ownLookup (handles : List (String × HVal)) :
    List String → Except Err (List HVal)
  | [] => .ok []
  | k :: rest =>
    match dlookup handles k with
    | Option.none => .error (.keyError k)
    | some hv =>
      match ownLookup handles rest with
      | .error e => .error e
      | .ok hvs => .ok (hv :: hvs)

mutual
/-- `Cell.get_params()` with the default `params=None`
(src/cortex/models/cell.py lines 400-428): collect
`self.__dict__[k]` for every `param_keys` entry, then append the
recursively flattened parameter lists of every component in declared
order.  The weight-noise branch (lines 402-416) is guarded by
`self.noise_switch() and self.weight_noise`; `weight_noise` defaults to 0
in `Cell._options`, and the branch, a random perturbation, is outside
this embedding. -/
def Cell.getParams : Cell → Except Err (List HVal)
  | Cell.mk _ _ comps _ _ _ keys handles =>
    match ownLookup handles keys with
    | .error e => .error e
    | .ok own => getParamsComps comps own

/-- The component loop of `get_params` (lines 418-427). -/
def getParamsComps : List (String × CompVal) → List HVal →
    Except Err (List HVal)
  | [], acc => .ok acc
  | (_, CompVal.cnone) :: rest, acc => getParamsComps rest acc
  | (_, CompVal.cone c) :: rest, acc =>
    match Cell.getParams c with
    | .error e => .error e
    | .ok ps => getParamsComps rest (acc ++ ps)
  | (_, CompVal.cmany cs) :: rest, acc =>
    match getParamsMany cs acc with
    | .error e => .error e
    | .ok acc' => getParamsComps rest acc'

/-- The `for c_ in component` inner loop of `get_params` (lines 421-424). -/
def getParamsMany : List Cell → List HVal → Except Err (List HVal)
  | [], acc => .ok acc
  | c :: cs, acc =>
    match Cell.getParams c with
    | .error e => .error e
    | .ok ps => getParamsMany cs (acc ++ ps)
end

/-! ## Concrete scenarios used by the claim theorems -/

/-- A manager in which cell `a` has been built and its argument record
holds `x = 1`. -/
def cmBuilt : Manager :=
  { cells := ["a"]
    cell_args := [("a", [("x", PyVal.nat 1)])]
    links := [], datasets := [], classes := [] }

/-- A manager in which cell `a` is declared but not built, with a pending
argument record holding `x = 1`. -/
def cmPending : Manager :=
  { cells := []
    cell_args := [("a", [("x", PyVal.nat 1)])]
    links := [], datasets := [], classes := [] }

/-- A cell class with one output port (`_dim_map = {'output': 'dim_out'}`)
and no distribution declaration. -/
def clsOut : CellClass :=
  { dim_map := [("output", "dim_out")], distribution := Option.none,
    dist_map := [], required := [] }

/-- A cell class with one input port (`_dim_map = {'input': 'dim_in'}`)
and no distribution declaration. -/
def clsIn : CellClass :=
  { dim_map := [("input", "dim_in")], distribution := Option.none,
    dist_map := [], required := [] }

/-- A cell class with an empty dimension map, like the base `Cell` class
(`Cell._dim_map = {}`). -/
def clsBare : CellClass :=
  { dim_map := [], distribution := Option.none,
    dist_map := [], required := [] }

/-- Two declared cells `a` (type `A`, `dim_out = 10`) and `b` (type `B`),
ready to be linked `a.output -> b.input`. -/
def cmTwoCells : Manager :=
  { cells := []
    cell_args :=
      [("a", [("cell_type", PyVal.str "A"), ("dim_out", PyVal.nat 10)]),
       ("b", [("cell_type", PyVal.str "B")])]
    links := [], datasets := []
    classes := [("A", clsOut), ("B", clsIn)] }

/-- A dataset with one field `x` of dimension 5 and distribution
`binomial`. -/
def dsD : Dataset :=
  { dims := [("x", PyVal.nat 5)]
    distributions := [("x", PyVal.str "binomial")] }

/-- A manager with the dataset `data` and a declared cell `c` of type `A`
(one input port): the link `data.x -> c.input` resolves. -/
def cmDataCell : Manager :=
  { cells := []
    cell_args := [("c", [("cell_type", PyVal.str "A")])]
    links := [], datasets := [("data", dsD)], classes := [("A", clsIn)] }

/-- The manager `cmDataCell` after `add_link('data.x', 'c.input')`. -/
def linkDC : Link :=
  { name := "data.x->c.input", value := PyVal.nat 5,
    distribution := PyVal.str "binomial"
    nodes := [("c", { C := clsIn, link_key := "input", dim_key := "dim_in",
                      dist_key := Option.none })] }

/-- A manager with the dataset `data` and a declared cell `c` whose class
has an empty dimension map: the link value resolves from the dataset but
node registration fails. -/
def cmDataBare : Manager :=
  { cells := []
    cell_args := [("c", [("cell_type", PyVal.str "E")])]
    links := [], datasets := [("data", dsD)], classes := [("E", clsBare)] }

/-- A manager with two registered datasets. -/
def cmTwoData : Manager :=
  { cells := [], cell_args := [], links := []
    datasets := [("d1", dsD), ("d2", dsD)], classes := [] }

/-! ## C1 and C2: Manager.match_args -/

/-- C1: the claim says that on a built cell, `match_args` with an
already-set key and an equal value succeeds as a no-op.  On the code it
does not: line 193 (`self.cell_args[cell_name] = {}`) replaces the
existing record `{'x': 1}` of the built cell `a` by an empty one, so the
incoming key `x` is treated as unknown and `match_args` raises the
Unknown-Argument `KeyError` — for an equal value, for a differing value
(where the claim expects the Argument-Mismatch `ValueError`), and for any
other key alike.  The mismatch check of lines 203-205 is unreachable. -/
theorem matchArgs_built_equal_value_raises :
    matchArgs cmBuilt "a" [("x", PyVal.nat 1)] =
      .error (.keyError "Requested key not found and cell already exists.") ∧
    matchArgs cmBuilt "a" [("x", PyVal.nat 2)] =
      .error (.keyError "Requested key not found and cell already exists.") ∧
    matchArgs cmBuilt "a" [("y", PyVal.nat 2)] =
      .error (.keyError "Requested key not found and cell already exists.") := by
  refine ⟨rfl, rfl, rfl⟩

/-- C2: the claim says that for a declared-but-unbuilt cell, `match_args`
merges the incoming keyword arguments into the pre-existing record so that
previously recorded keys keep their values.  On the code the reset at line
193 discards the pre-existing record: after `match_args('a', y=2)` on the
record `{'x': 1}` the record is exactly `{'y': 2}` — the recorded key `x`
is lost instead of kept. -/
theorem matchArgs_unbuilt_discards_record :
    matchArgs cmPending "a" [("y", PyVal.nat 2)] =
      .ok { cmPending with cell_args := [("a", [("y", PyVal.nat 2)])] } ∧
    (pyGet [("y", PyVal.nat 2)] "x" = PyVal.none) := by
  refine ⟨rfl, rfl⟩

/-! ## C3: Link value/distribution resolution between two cells -/

/-- C3: the claim describes the target-then-source resolution protocol of
`Link.__init__` for a link between two cells, with per-endpoint failures
non-fatal and `Unresolvable-Link` only when no endpoint produces a value.
On the code the construction of `a.output -> b.input` — whose value the
protocol would obtain from the source endpoint (`dim_out = 10`) — dies at
its very first step, line 91: the target-side call
`t_class.set_link_value(t_key, **t_args)` raises the uncaught
`AttributeError` of the dead `manager.link` dereference (cell.py line
232), which `except ValueError` does not catch, so no cell-to-cell link
is ever constructed and neither the source-side value attempt nor the
distribution protocol is reached (the `set_link_distribution` calls of
lines 99 and 103 would additionally omit the method's required positional
`key`).  The conjuncts check the endpoint classification, the failing
target-side call underneath the `try`, and the failing construction. -/
theorem linkInit_two_cells_attribute_error :
    getArgs cmTwoCells "a.output" = .ok ("a", "output", some clsOut) ∧
    getArgs cmTwoCells "b.input" = .ok ("b", "input", some clsIn) ∧
    setLinkValue clsIn "input" [("cell_type", PyVal.str "B")] =
      .error (.attributeError "Manager object has no attribute link") ∧
    tryVal PyVal.none
        (setLinkValueOn (some clsIn) "input" [("cell_type", PyVal.str "B")]) =
      .error (.attributeError "Manager object has no attribute link") ∧
    linkInit cmTwoCells "a.output" "b.input" =
      .error (.attributeError "Manager object has no attribute link") := by
  refine ⟨rfl, rfl, rfl, rfl, rfl⟩

/-! ## Inversion lemmas for Link construction -/

theorem dmem_dset_self {α : Type} (d : List (String × α)) (k : String)
    (v : α) : dmem (dset d k v) k = true := by
  induction d with
  | nil => simp [dset, dmem]
  | cons hd t ih =>
    obtain ⟨k₀, v₀⟩ := hd
    by_cases hk : k₀ = k
    · simp [dset, hk, dmem]
    · simp [dset, hk, dmem, ih]

theorem dmem_dset_of_dmem {α : Type} (d : List (String × α)) (k k' : String)
    (v : α) (h : dmem d k' = true) : dmem (dset d k v) k' = true := by
  induction d with
  | nil => simp [dmem] at h
  | cons hd t ih =>
    obtain ⟨k₀, v₀⟩ := hd
    simp only [dmem, Bool.or_eq_true, decide_eq_true_eq] at h
    by_cases hk : k₀ = k
    · subst hk
      rcases h with h | h
      · subst h
        simp [dset, dmem]
      · simp [dset, dmem, h]
    · rcases h with h | h
      · subst h
        simp [dset, hk, dmem]
      · simp [dset, hk, dmem, ih h]

theorem dlookup_dset_inv {α : Type} (d : List (String × α)) (k k' : String)
    (v w : α) (h : dlookup (dset d k v) k' = some w) :
    (k' = k ∧ w = v) ∨ (k' ≠ k ∧ dlookup d k' = some w) := by
  by_cases hk : k' = k
  · subst hk
    rw [dlookup_dset_self] at h
    exact Or.inl ⟨rfl, (Option.some_inj.mp h).symm⟩
  · rw [dlookup_dset_ne _ _ _ _ (fun hh => hk hh.symm)] at h
    exact Or.inr ⟨hk, h⟩

/-- Full inversion of `linkFinish` on success: the resolved pair is the
link's value/distribution, the value is set, the link is appended to the
manager's link list, no other manager field changes, and the node table is
built from the non-dataset endpoints (source entry first, target entry
possibly overwriting it). -/
theorem linkFinish_inv (cm : Manager) (f t f_name f_key t_name t_key : String)
    (f_class t_class : Option CellClass) (dsn : Option String)
    (vd : Except Err (PyVal × PyVal)) (cm' : Manager) (l : Link)
    (h : linkFinish cm f t f_name f_key f_class t_name t_key t_class dsn vd =
      .ok (cm', l)) :
    vd = .ok (l.value, l.distribution) ∧ l.value ≠ PyVal.none ∧
    cm'.links = cm.links ++ [l] ∧ cm'.cells = cm.cells ∧
    cm'.cell_args = cm.cell_args ∧ cm'.datasets = cm.datasets ∧
    cm'.classes = cm.classes ∧
    ∃ nodes1,
      ((some f_name ≠ dsn ∧
        ∃ nf, mkNodeOn f_class f_key = .ok nf ∧ nodes1 = dset [] f_name nf) ∨
       (some f_name = dsn ∧ nodes1 = ([] : List (String × Node)))) ∧
      ((some t_name ≠ dsn ∧
        ∃ nt, mkNodeOn t_class t_key = .ok nt ∧
          l.nodes = dset nodes1 t_name nt) ∨
       (some t_name = dsn ∧ l.nodes = nodes1)) := by
  cases vd with
  | error e => simp [linkFinish] at h
  | ok p =>
    obtain ⟨v, d⟩ := p
    simp only [linkFinish] at h
    by_cases hv : v = PyVal.none
    · rw [if_pos hv] at h
      exact absurd h (by simp)
    · rw [if_neg hv] at h
      by_cases hf : some f_name ≠ dsn
      · rw [if_pos hf] at h
        match hnf : mkNodeOn f_class f_key with
        | .error e =>
          rw [hnf] at h
          exact absurd h (by simp [Except.map])
        | .ok nf =>
          rw [hnf] at h
          simp only [Except.map] at h
          by_cases ht : some t_name ≠ dsn
          · rw [if_pos ht] at h
            match hnt : mkNodeOn t_class t_key with
            | .error e =>
              rw [hnt] at h
              exact absurd h (by simp [Except.map])
            | .ok nt =>
              rw [hnt] at h
              simp only [Except.map, Except.ok.injEq, Prod.mk.injEq] at h
              obtain ⟨hcm, hl⟩ := h
              subst hcm
              subst hl
              refine ⟨rfl, hv, rfl, rfl, rfl, rfl, rfl,
                dset [] f_name nf, Or.inl ⟨hf, nf, rfl, rfl⟩,
                Or.inl ⟨ht, nt, rfl, rfl⟩⟩
          · rw [if_neg ht] at h
            simp only [Except.ok.injEq, Prod.mk.injEq] at h
            obtain ⟨hcm, hl⟩ := h
            subst hcm
            subst hl
            refine ⟨rfl, hv, rfl, rfl, rfl, rfl, rfl,
              dset [] f_name nf, Or.inl ⟨hf, nf, rfl, rfl⟩,
              Or.inr ⟨not_not.mp ht, rfl⟩⟩
      · rw [if_neg hf] at h
        dsimp only at h
        by_cases ht : some t_name ≠ dsn
        · rw [if_pos ht] at h
          match hnt : mkNodeOn t_class t_key with
          | .error e =>
            rw [hnt] at h
            exact absurd h (by simp [Except.map])
          | .ok nt =>
            rw [hnt] at h
            simp only [Except.map, Except.ok.injEq, Prod.mk.injEq] at h
            obtain ⟨hcm, hl⟩ := h
            subst hcm
            subst hl
            refine ⟨rfl, hv, rfl, rfl, rfl, rfl, rfl,
              [], Or.inr ⟨not_not.mp hf, rfl⟩, Or.inl ⟨ht, nt, rfl, rfl⟩⟩
        · rw [if_neg ht] at h
          simp only [Except.ok.injEq, Prod.mk.injEq] at h
          obtain ⟨hcm, hl⟩ := h
          subst hcm
          subst hl
          refine ⟨rfl, hv, rfl, rfl, rfl, rfl, rfl,
            [], Or.inr ⟨not_not.mp hf, rfl⟩, Or.inr ⟨not_not.mp ht, rfl⟩⟩

/-- An endpoint reference `d.k` whose first component names a registered
dataset is classified by `get_args` as that dataset's field `k`, with no
class. -/
theorem getArgs_dataset (cm : Manager) (name d k : String)
    (hsplit : splitDots name = [d, k])
    (hds : dmem cm.datasets d = true) :
    getArgs cm name = .ok (d, k, Option.none) := by
  unfold getArgs
  rw [hsplit]
  simp only [List.headD, hds, if_true]
  simp [splitArg, hsplit, joinDots]

/-- Inversion of the dataset branch of `Link.__init__`. -/
theorem linkResolveDataset_inv (cm : Manager) (d k : String) (ds : Dataset)
    (v dd : PyVal) (hds : dlookup cm.datasets d = some ds)
    (h : linkResolveDataset cm d k = .ok (v, dd)) :
    dlookup ds.dims k = some v ∧ dlookup ds.distributions k = some dd := by
  unfold linkResolveDataset at h
  rw [hds] at h
  dsimp only at h
  cases hdims : dlookup ds.dims k with
  | none => rw [hdims] at h; simp at h
  | some v' =>
    rw [hdims] at h
    cases hdist : dlookup ds.distributions k with
    | none => rw [hdist] at h; simp at h
    | some d' =>
      rw [hdist] at h
      simp only [Except.ok.injEq, Prod.mk.injEq] at h
      obtain ⟨hv, hd⟩ := h
      subst hv
      subst hd
      exact ⟨rfl, rfl⟩

/-! ## C10: Manager.build on an already-built name -/

/-- C10: for a name already present in the built-cell table, `build(name)`
takes the no-name path: it is the same computation as `build()` with no
name, namely the loop that builds every cell of `cell_args` not yet in
`cells`, in registration order. -/
theorem build_built_name_builds_all (cm : Manager) (n : String)
    (h : cm.cells.contains n = true) :
    build cm (some n) = build cm Option.none ∧
    build cm Option.none = buildLoop (cm.cell_args.map Prod.fst) cm := by
  constructor
  · have h' : n ∈ cm.cells := by simpa using h
    simp [build, h']
  · rfl

/-- Witness for C10 at a concrete manager: `a` is built, and
`build(some "a")` equals `build(none)`. -/
theorem build_built_name_builds_all_witness :
    build cmBuilt (some "a") = build cmBuilt Option.none ∧
    build cmBuilt Option.none =
      buildLoop (cmBuilt.cell_args.map Prod.fst) cmBuilt :=
  build_built_name_builds_all cmBuilt "a" rfl

/-! ## C5: dataset endpoints -/

/-- C5: a link between two dataset endpoints always fails with
Invalid-Link (`ValueError('Cannot link 2 datasets')`), for any registered
dataset names; and when a link with a dataset endpoint is successfully
constructed, its value and distribution are exactly the entries of that
dataset's declared `dims` and `distributions` tables for the referenced
field — whatever the other endpoint's cell arguments are, since the cell
side is never consulted on this path. -/
theorem link_dataset_endpoints :
    (∀ (cm : Manager) (f t d1 k1 d2 k2 : String),
      splitDots f = [d1, k1] → splitDots t = [d2, k2] →
      dmem cm.datasets d1 = true → dmem cm.datasets d2 = true →
      linkInit cm f t = .error (.valueError "Cannot link 2 datasets")) ∧
    (∀ (cm cm' : Manager) (l : Link) (f t d k : String) (ds : Dataset),
      splitDots f = [d, k] → dmem cm.datasets d = true →
      dlookup cm.datasets d = some ds →
      linkInit cm f t = .ok (cm', l) →
      dlookup ds.dims k = some l.value ∧
      dlookup ds.distributions k = some l.distribution) ∧
    (∀ (cm cm' : Manager) (l : Link) (f t d k : String) (ds : Dataset),
      splitDots t = [d, k] → dmem cm.datasets d = true →
      dlookup cm.datasets d = some ds →
      linkInit cm f t = .ok (cm', l) →
      dlookup ds.dims k = some l.value ∧
      dlookup ds.distributions k = some l.distribution) := by
  refine ⟨?_, ?_, ?_⟩
  · intro cm f t d1 k1 d2 k2 hf ht h1 h2
    unfold linkInit
    rw [getArgs_dataset cm f d1 k1 hf h1, getArgs_dataset cm t d2 k2 ht h2]
    dsimp only
    rw [h1, h2]
    rfl
  · intro cm cm' l f t d k ds hf hd hds h
    unfold linkInit at h
    rw [getArgs_dataset cm f d k hf hd] at h
    cases hgt : getArgs cm t with
    | error e => rw [hgt] at h; simp at h
    | ok trip =>
      obtain ⟨tn, tk, tc⟩ := trip
      rw [hgt] at h
      dsimp only at h
      rw [hd] at h
      by_cases htn : dmem cm.datasets tn = true
      · rw [htn] at h
        simp at h
      · rw [Bool.not_eq_true] at htn
        rw [htn] at h
        simp only [Bool.false_eq_true, if_false, if_true] at h
        have hinv := linkFinish_inv cm f t d k tn tk Option.none tc
          (some d) (linkResolveDataset cm d k) cm' l h
        exact linkResolveDataset_inv cm d k ds l.value l.distribution hds
          hinv.1
  · intro cm cm' l f t d k ds ht hd hds h
    unfold linkInit at h
    rw [getArgs_dataset cm t d k ht hd] at h
    cases hgf : getArgs cm f with
    | error e => rw [hgf] at h; simp at h
    | ok trip =>
      obtain ⟨fn, fk, fc⟩ := trip
      rw [hgf] at h
      dsimp only at h
      by_cases hfn : dmem cm.datasets fn = true
      · rw [hfn] at h
        rw [hd] at h
        simp at h
      · rw [Bool.not_eq_true] at hfn
        rw [hfn] at h
        rw [hd] at h
        simp only [Bool.false_eq_true, if_false, if_true] at h
        have hinv := linkFinish_inv cm f t fn fk d k fc Option.none
          (some d) (linkResolveDataset cm d k) cm' l h
        exact linkResolveDataset_inv cm d k ds l.value l.distribution hds
          hinv.1

/-- The link produced by `Link(cmDataCell, 'data.x', 'c.input')`. -/
def cmDataCellLinked : Manager := { cmDataCell with links := [linkDC] }

/-- A manager with a declared cell `a` (type `A`, one output port) and the
dataset `data`: used for a cell-to-dataset link. -/
def cmCellData : Manager :=
  { cells := []
    cell_args := [("a", [("cell_type", PyVal.str "A")])]
    links := [], datasets := [("data", dsD)], classes := [("A", clsOut)] }

/-- The link produced by `Link(cmCellData, 'a.output', 'data.x')`. -/
def linkCD : Link :=
  { name := "a.output->data.x", value := PyVal.nat 5,
    distribution := PyVal.str "binomial"
    nodes := [("a", { C := clsOut, link_key := "output",
                      dim_key := "dim_out", dist_key := Option.none })] }

/-- Witness for C5: a two-dataset link over two registered datasets fails
with Invalid-Link, and for both a dataset-to-cell and a cell-to-dataset
link the constructed value/distribution are the dataset's table entries. -/
theorem link_dataset_endpoints_witness :
    linkInit cmTwoData "d1.x" "d2.x" =
      .error (.valueError "Cannot link 2 datasets") ∧
    (dlookup dsD.dims "x" = some linkDC.value ∧
     dlookup dsD.distributions "x" = some linkDC.distribution) ∧
    (dlookup dsD.dims "x" = some linkCD.value ∧
     dlookup dsD.distributions "x" = some linkCD.distribution) :=
  ⟨link_dataset_endpoints.1 cmTwoData "d1.x" "d2.x" "d1" "x" "d2" "x"
      rfl rfl rfl rfl,
   link_dataset_endpoints.2.1 cmDataCell cmDataCellLinked linkDC
      "data.x" "c.input" "data" "x" dsD rfl rfl rfl rfl,
   link_dataset_endpoints.2.2 cmCellData
      { cmCellData with links := [linkCD] } linkCD
      "a.output" "data.x" "data" "x" dsD rfl rfl rfl rfl⟩

/-! ## C4: node registration on successful Link construction -/

/-- Counterexample to C4 as stated: in `cmDataBare` both endpoints refer
to registered owners (`data` is a registered dataset, `c` a registered
cell) and the value is resolvable (the dataset declares `x -> 5`), yet
`Link(cm, 'data.x', 'c.y')` does not complete: registering the cell
endpoint as a `Node` fails with `TypeError('Class has no key')` because
`y` is not in the class's (empty) `_dim_map`. -/
theorem linkInit_fails_despite_resolvable_value :
    dmem cmDataBare.datasets "data" = true ∧
    dlookup dsD.dims "x" = some (PyVal.nat 5) ∧
    dmem cmDataBare.cell_args "c" = true ∧
    linkInit cmDataBare "data.x" "c.y" =
      .error (.typeError "Class has no key") :=
  ⟨rfl, rfl, rfl, rfl⟩

/-- C4 (amended): whenever `Link.__init__` completes, every node on the
link names a non-dataset owner, every endpoint whose owner is not a
registered dataset is registered as a node, and the link is appended to
the manager's link list. -/
theorem linkInit_ok_registers_nodes (cm cm' : Manager) (l : Link)
    (f t : String) (h : linkInit cm f t = .ok (cm', l)) :
    cm'.links = cm.links ++ [l] ∧
    (∀ name node, dlookup l.nodes name = some node →
      dmem cm.datasets name = false) ∧
    (∀ fn fk fc, getArgs cm f = .ok (fn, fk, fc) →
      dmem cm.datasets fn = false → dmem l.nodes fn = true) ∧
    (∀ tn tk tc, getArgs cm t = .ok (tn, tk, tc) →
      dmem cm.datasets tn = false → dmem l.nodes tn = true) := by
  unfold linkInit at h
  cases hgf : getArgs cm f with
  | error e => rw [hgf] at h; simp at h
  | ok ftrip =>
  obtain ⟨f_name, f_key, f_class⟩ := ftrip
  rw [hgf] at h
  cases hgt : getArgs cm t with
  | error e => rw [hgt] at h; simp at h
  | ok ttrip =>
  obtain ⟨t_name, t_key, t_class⟩ := ttrip
  rw [hgt] at h
  dsimp only at h
  by_cases hdf : dmem cm.datasets f_name = true
  · rw [hdf] at h
    by_cases hdt : dmem cm.datasets t_name = true
    · rw [hdt] at h
      simp at h
    · rw [Bool.not_eq_true] at hdt
      rw [hdt] at h
      simp only [Bool.false_eq_true, if_false, if_true] at h
      have hinv := linkFinish_inv cm f t f_name f_key t_name t_key
        f_class t_class (some f_name) (linkResolveDataset cm f_name f_key)
        cm' l h
      obtain ⟨-, -, hlinks, -, -, -, -, nodes1, hfp, htp⟩ := hinv
      have hnodes1 : nodes1 = ([] : List (String × Node)) := by
        rcases hfp with ⟨hne, -⟩ | ⟨-, hn⟩
        · exact absurd rfl hne
        · exact hn
      have hfnet : t_name ≠ f_name := by
        intro hEq
        rw [hEq, hdf] at hdt
        exact Bool.true_eq_false.mp hdt
      have hlnodes : ∃ nt, l.nodes = [(t_name, nt)] := by
        rcases htp with ⟨-, nt, -, hn⟩ | ⟨hEq, -⟩
        · refine ⟨nt, ?_⟩
          rw [hn, hnodes1]
          rfl
        · exact absurd (Option.some_inj.mp hEq) hfnet
      obtain ⟨nt, hln⟩ := hlnodes
      refine ⟨hlinks, ?_, ?_, ?_⟩
      · intro name node hlk
        rw [hln] at hlk
        unfold dlookup at hlk
        by_cases hn : t_name = name
        · rw [← hn]
          exact hdt
        · rw [if_neg hn] at hlk
          exact absurd hlk (by simp [dlookup])
      · intro fn fk fc hgf' hfn
        simp only [Except.ok.injEq, Prod.mk.injEq] at hgf'
        rw [← hgf'.1] at hfn
        rw [hdf] at hfn
        exact absurd hfn (by simp)
      · intro tn tk tc hgt' htn
        simp only [Except.ok.injEq, Prod.mk.injEq] at hgt'
        rw [← hgt'.1, hln]
        simp [dmem]
  · rw [Bool.not_eq_true] at hdf
    rw [hdf] at h
    simp only [Bool.false_eq_true, if_false] at h
    by_cases hdt : dmem cm.datasets t_name = true
    · rw [hdt] at h
      simp only [if_true] at h
      have hinv := linkFinish_inv cm f t f_name f_key t_name t_key
        f_class t_class (some t_name) (linkResolveDataset cm t_name t_key)
        cm' l h
      obtain ⟨-, -, hlinks, -, -, -, -, nodes1, hfp, htp⟩ := hinv
      have hfnet : f_name ≠ t_name := by
        intro hEq
        rw [hEq, hdt] at hdf
        exact Bool.true_eq_false.mp hdf
      have hnodes1 : ∃ nf, nodes1 = [(f_name, nf)] := by
        rcases hfp with ⟨-, nf, -, hn⟩ | ⟨hEq, -⟩
        · exact ⟨nf, by rw [hn]; rfl⟩
        · exact absurd (Option.some_inj.mp hEq) hfnet
      obtain ⟨nf, hn1⟩ := hnodes1
      have hln : l.nodes = [(f_name, nf)] := by
        rcases htp with ⟨hne, -⟩ | ⟨-, hn⟩
        · exact absurd rfl hne
        · rw [hn, hn1]
      refine ⟨hlinks, ?_, ?_, ?_⟩
      · intro name node hlk
        rw [hln] at hlk
        unfold dlookup at hlk
        by_cases hn : f_name = name
        · rw [← hn]
          exact hdf
        · rw [if_neg hn] at hlk
          exact absurd hlk (by simp [dlookup])
      · intro fn fk fc hgf' hfn
        simp only [Except.ok.injEq, Prod.mk.injEq] at hgf'
        rw [← hgf'.1, hln]
        simp [dmem]
      · intro tn tk tc hgt' htn
        simp only [Except.ok.injEq, Prod.mk.injEq] at hgt'
        rw [← hgt'.1] at htn
        rw [hdt] at htn
        exact absurd htn (by simp)
    · rw [Bool.not_eq_true] at hdt
      rw [hdt] at h
      simp only [Bool.false_eq_true, if_false] at h
      have hinv := linkFinish_inv cm f t f_name f_key t_name t_key
        f_class t_class Option.none
        (linkResolveCells cm f_name f_key f_class t_name t_key t_class)
        cm' l h
      obtain ⟨-, -, hlinks, -, -, -, -, nodes1, hfp, htp⟩ := hinv
      have hnodes1 : ∃ nf, nodes1 = [(f_name, nf)] := by
        rcases hfp with ⟨-, nf, -, hn⟩ | ⟨hEq, -⟩
        · exact ⟨nf, by rw [hn]; rfl⟩
        · exact absurd hEq (by simp)
      obtain ⟨nf, hn1⟩ := hnodes1
      have hln : ∃ nt, l.nodes = dset [(f_name, nf)] t_name nt := by
        rcases htp with ⟨-, nt, -, hn⟩ | ⟨hEq, -⟩
        · exact ⟨nt, by rw [hn, hn1]⟩
        · exact absurd hEq (by simp)
      obtain ⟨nt, hln⟩ := hln
      refine ⟨hlinks, ?_, ?_, ?_⟩
      · intro name node hlk
        rw [hln] at hlk
        rcases dlookup_dset_inv [(f_name, nf)] t_name name nt node hlk with
          ⟨hn, -⟩ | ⟨-, hl2⟩
        · rw [hn]
          exact hdt
        · unfold dlookup at hl2
          by_cases hn : f_name = name
          · rw [← hn]
            exact hdf
          · rw [if_neg hn] at hl2
            exact absurd hl2 (by simp [dlookup])
      · intro fn fk fc hgf' hfn
        simp only [Except.ok.injEq, Prod.mk.injEq] at hgf'
        rw [← hgf'.1, hln]
        exact dmem_dset_of_dmem [(f_name, nf)] t_name f_name nt
          (by simp [dmem])
      · intro tn tk tc hgt' htn
        simp only [Except.ok.injEq, Prod.mk.injEq] at hgt'
        rw [← hgt'.1, hln]
        exact dmem_dset_self [(f_name, nf)] t_name nt

/-- Witness for C4 (amended) at the dataset-to-cell link of
`cmDataCell`: the link is appended, its only node is the non-dataset
endpoint `c`, and the dataset endpoint is not a node. -/
theorem linkInit_ok_registers_nodes_witness :
    cmDataCellLinked.links = cmDataCell.links ++ [linkDC] ∧
    dmem linkDC.nodes "c" = true ∧
    dmem cmDataCell.datasets "c" = false :=
  ⟨(linkInit_ok_registers_nodes cmDataCell cmDataCellLinked linkDC
      "data.x" "c.input" rfl).1,
   (linkInit_ok_registers_nodes cmDataCell cmDataCellLinked linkDC
      "data.x" "c.input" rfl).2.2.2 "c" "input" (some clsIn) rfl rfl,
   rfl⟩

/-! ## C6: add_link back-fill -/

theorem pyGet_dset_self (args : List (String × PyVal)) (k : String)
    (v : PyVal) : pyGet (dset args k v) k = v := by
  simp [pyGet, dlookup_dset_self]

theorem pyGet_dset_ne (args : List (String × PyVal)) (k k' : String)
    (v : PyVal) (h : k ≠ k') : pyGet (dset args k v) k' = pyGet args k' := by
  simp [pyGet, dlookup_dset_ne _ _ _ _ h]

/-- The dimension-key entry after the back-fill of one node: set to the
link exactly when it was previously unset (absent or `None`). -/
theorem backfillArgs_dim_lookup (L : Nat) (node : Node)
    (args : List (String × PyVal)) :
    dlookup (backfillArgs L node args) node.dim_key =
      (if pyGet args node.dim_key = PyVal.none then some (PyVal.link L)
       else dlookup args node.dim_key) := by
  unfold backfillArgs
  by_cases h0 : pyGet args node.dim_key = PyVal.none
  · rw [if_pos h0, if_pos h0]
    have h1 : dlookup (dset args node.dim_key (PyVal.link L)) node.dim_key =
        some (PyVal.link L) := dlookup_dset_self _ _ _
    cases hdk : node.dist_key with
    | none => exact h1
    | some d =>
      dsimp only
      by_cases hd : distArgKey d = node.dim_key
      · rw [hd]
        have : pyGet (dset args node.dim_key (PyVal.link L)) node.dim_key =
            PyVal.link L := pyGet_dset_self _ _ _
        rw [if_neg]
        · exact h1
        · intro hc
          rw [this] at hc
          exact absurd hc.1 (by simp)
      · by_cases hc : pyGet (dset args node.dim_key (PyVal.link L))
            (distArgKey d) = PyVal.none ∧ node.C.distribution ≠ Option.none
        · rw [if_pos hc]
          rw [dlookup_dset_ne _ _ _ _ hd]
          exact h1
        · rw [if_neg hc]
          exact h1
  · rw [if_neg h0, if_neg h0]
    cases hdk : node.dist_key with
    | none => rfl
    | some d =>
      dsimp only
      by_cases hd : distArgKey d = node.dim_key
      · rw [hd]
        rw [if_neg]
        intro hc
        exact h0 hc.1
      · by_cases hc : pyGet args (distArgKey d) = PyVal.none ∧
            node.C.distribution ≠ Option.none
        · rw [if_pos hc]
          exact dlookup_dset_ne _ _ _ _ hd
        · rw [if_neg hc]

/-- The distribution-argument entry (when distinct from the dimension key)
after the back-fill of one node: set to the link exactly when it was
previously unset and the node's class declares a non-null distribution. -/
theorem backfillArgs_dist_lookup (L : Nat) (node : Node)
    (args : List (String × PyVal)) (d : String)
    (hdk : node.dist_key = some d) (hne : distArgKey d ≠ node.dim_key) :
    dlookup (backfillArgs L node args) (distArgKey d) =
      (if pyGet args (distArgKey d) = PyVal.none ∧
          node.C.distribution ≠ Option.none
       then some (PyVal.link L)
       else dlookup args (distArgKey d)) := by
  unfold backfillArgs
  rw [hdk]
  dsimp only
  by_cases h0 : pyGet args node.dim_key = PyVal.none
  · rw [if_pos h0]
    have hget : pyGet (dset args node.dim_key (PyVal.link L)) (distArgKey d) =
        pyGet args (distArgKey d) :=
      pyGet_dset_ne _ _ _ _ (fun hh => hne hh.symm)
    rw [hget]
    by_cases hc : pyGet args (distArgKey d) = PyVal.none ∧
        node.C.distribution ≠ Option.none
    · rw [if_pos hc, if_pos hc]
      exact dlookup_dset_self _ _ _
    · rw [if_neg hc, if_neg hc]
      exact dlookup_dset_ne _ _ _ _ (fun hh => hne hh.symm)
  · rw [if_neg h0]
    by_cases hc : pyGet args (distArgKey d) = PyVal.none ∧
        node.C.distribution ≠ Option.none
    · rw [if_pos hc, if_pos hc]
      exact dlookup_dset_self _ _ _
    · rw [if_neg hc, if_neg hc]

/-- Every entry other than the dimension key and the resolved distribution
argument is unchanged by the back-fill of one node. -/
theorem backfillArgs_other_lookup (L : Nat) (node : Node)
    (args : List (String × PyVal)) (k2 : String)
    (h1 : k2 ≠ node.dim_key)
    (h2 : ∀ d, node.dist_key = some d → k2 ≠ distArgKey d) :
    dlookup (backfillArgs L node args) k2 = dlookup args k2 := by
  unfold backfillArgs
  have hstep : ∀ a : List (String × PyVal),
      dlookup (if pyGet args node.dim_key = PyVal.none then
        dset args node.dim_key (PyVal.link L) else args) k2 =
      dlookup args k2 := by
    intro a
    by_cases h0 : pyGet args node.dim_key = PyVal.none
    · rw [if_pos h0]
      exact dlookup_dset_ne _ _ _ _ (fun hh => h1 hh.symm)
    · rw [if_neg h0]
  cases hdk : node.dist_key with
  | none => exact hstep []
  | some d =>
    dsimp only
    by_cases hc : pyGet (if pyGet args node.dim_key = PyVal.none then
        dset args node.dim_key (PyVal.link L) else args) (distArgKey d) =
        PyVal.none ∧ node.C.distribution ≠ Option.none
    · rw [if_pos hc]
      rw [dlookup_dset_ne _ _ _ _ (fun hh => (h2 d hdk) hh.symm)]
      exact hstep []
    · rw [if_neg hc]
      exact hstep []

theorem dmem_iff_mem_keys {α : Type} (d : List (String × α)) (k : String) :
    dmem d k = true ↔ k ∈ d.map Prod.fst := by
  induction d with
  | nil => simp [dmem]
  | cons hd t ih =>
    obtain ⟨k₀, v₀⟩ := hd
    by_cases hk : k₀ = k
    · simp [dmem, hk]
    · simp [dmem, hk, ih]
      intro hEq
      exact absurd hEq.symm hk

theorem mem_keys_dset {α : Type} (d : List (String × α)) (k k' : String)
    (v : α) :
    k' ∈ (dset d k v).map Prod.fst ↔ k' = k ∨ k' ∈ d.map Prod.fst := by
  induction d with
  | nil => simp [dset]
  | cons hd t ih =>
    obtain ⟨k₀, v₀⟩ := hd
    by_cases hk : k₀ = k
    · subst hk
      simp [dset]
    · simp [dset, hk, ih]
      tauto

theorem dset_keys_nodup {α : Type} (d : List (String × α)) (k : String)
    (v : α) (h : (d.map Prod.fst).Nodup) :
    ((dset d k v).map Prod.fst).Nodup := by
  induction d with
  | nil => simp [dset]
  | cons hd t ih =>
    obtain ⟨k₀, v₀⟩ := hd
    simp only [List.map_cons, List.nodup_cons] at h
    by_cases hk : k₀ = k
    · subst hk
      simpa [dset] using h
    · simp only [dset, hk, if_false, List.map_cons, List.nodup_cons]
      refine ⟨?_, ih h.2⟩
      intro hmem
      rcases (mem_keys_dset t k k₀ v).mp hmem with hEq | hmem'
      · exact hk hEq
      · exact h.1 hmem'

/-- A successful `Link.__init__` always ends in a successful `linkFinish`
for some classification of the endpoints. -/
theorem linkInit_ok_exists_finish (cm cm' : Manager) (l : Link)
    (f t : String) (h : linkInit cm f t = .ok (cm', l)) :
    ∃ fn fk fc tn tk tc dsn vd,
      linkFinish cm f t fn fk fc tn tk tc dsn vd = .ok (cm', l) := by
  unfold linkInit at h
  cases hgf : getArgs cm f with
  | error e => rw [hgf] at h; simp at h
  | ok ftrip =>
  obtain ⟨f_name, f_key, f_class⟩ := ftrip
  rw [hgf] at h
  cases hgt : getArgs cm t with
  | error e => rw [hgt] at h; simp at h
  | ok ttrip =>
  obtain ⟨t_name, t_key, t_class⟩ := ttrip
  rw [hgt] at h
  dsimp only at h
  by_cases hdf : dmem cm.datasets f_name = true
  · rw [hdf] at h
    by_cases hdt : dmem cm.datasets t_name = true
    · rw [hdt] at h
      simp at h
    · rw [Bool.not_eq_true] at hdt
      rw [hdt] at h
      simp only [Bool.false_eq_true, if_false, if_true] at h
      exact ⟨f_name, f_key, f_class, t_name, t_key, t_class, some f_name,
        linkResolveDataset cm f_name f_key, h⟩
  · rw [Bool.not_eq_true] at hdf
    rw [hdf] at h
    simp only [Bool.false_eq_true, if_false] at h
    by_cases hdt : dmem cm.datasets t_name = true
    · rw [hdt] at h
      simp only [if_true] at h
      exact ⟨f_name, f_key, f_class, t_name, t_key, t_class, some t_name,
        linkResolveDataset cm t_name t_key, h⟩
    · rw [Bool.not_eq_true] at hdt
      rw [hdt] at h
      simp only [Bool.false_eq_true, if_false] at h
      exact ⟨f_name, f_key, f_class, t_name, t_key, t_class, Option.none,
        linkResolveCells cm f_name f_key f_class t_name t_key t_class, h⟩

/-- The node table of a successfully constructed link has pairwise
distinct keys, and the construction leaves the registry tables other than
the link list unchanged. -/
theorem linkInit_ok_frames (cm cm' : Manager) (l : Link) (f t : String)
    (h : linkInit cm f t = .ok (cm', l)) :
    (l.nodes.map Prod.fst).Nodup ∧ cm'.cells = cm.cells ∧
    cm'.cell_args = cm.cell_args ∧ cm'.datasets = cm.datasets ∧
    cm'.classes = cm.classes ∧ cm'.links = cm.links ++ [l] := by
  obtain ⟨fn, fk, fc, tn, tk, tc, dsn, vd, hfin⟩ :=
    linkInit_ok_exists_finish cm cm' l f t h
  obtain ⟨-, -, hlinks, hcells, hargs, hds, hcls, nodes1, hfp, htp⟩ :=
    linkFinish_inv cm f t fn fk tn tk fc tc dsn vd cm' l hfin
  have hn1 : (nodes1.map Prod.fst).Nodup := by
    rcases hfp with ⟨-, nf, -, hn⟩ | ⟨-, hn⟩
    · rw [hn]
      exact dset_keys_nodup [] fn nf (by simp)
    · rw [hn]
      simp
  have hn2 : (l.nodes.map Prod.fst).Nodup := by
    rcases htp with ⟨-, nt, -, hn⟩ | ⟨-, hn⟩
    · rw [hn]
      exact dset_keys_nodup nodes1 tn nt hn1
    · rw [hn]
      exact hn1
  exact ⟨hn2, hcells, hargs, hds, hcls, hlinks⟩

/-- Behaviour of the `add_link` back-fill loop on a node table with
pairwise distinct names: each non-dataset node's record is rewritten by
`backfillArgs`, all other records are untouched, and no other manager
field changes. -/
theorem backfillLoop_spec (L : Nat) (nodes : List (String × Node)) :
    ∀ (cm cm' : Manager), (nodes.map Prod.fst).Nodup →
    backfillLoop L nodes cm = .ok cm' →
    cm'.cells = cm.cells ∧ cm'.links = cm.links ∧
    cm'.datasets = cm.datasets ∧ cm'.classes = cm.classes ∧
    (∀ name node, dlookup nodes name = some node →
      dmem cm.datasets name = false →
      ∃ old, dlookup cm.cell_args name = some old ∧
        dlookup cm'.cell_args name = some (backfillArgs L node old)) ∧
    (∀ name, dmem nodes name = false →
      dlookup cm'.cell_args name = dlookup cm.cell_args name) := by
  induction nodes with
  | nil =>
    intro cm cm' _ h
    simp only [backfillLoop, Except.ok.injEq] at h
    subst h
    refine ⟨rfl, rfl, rfl, rfl, ?_, ?_⟩
    · intro name node hlk
      simp [dlookup] at hlk
    · intro name _
      rfl
  | cons hd rest ih =>
    obtain ⟨n0, nd0⟩ := hd
    intro cm cm' hnd h
    simp only [List.map_cons, List.nodup_cons] at hnd
    simp only [backfillLoop] at h
    by_cases hds : dmem cm.datasets n0 = true
    · rw [hds] at h
      simp only [if_true] at h
      obtain ⟨hc1, hc2, hc3, hc4, hc5, hc6⟩ := ih cm cm' hnd.2 h
      refine ⟨hc1, hc2, hc3, hc4, ?_, ?_⟩
      · intro name node hlk hname
        unfold dlookup at hlk
        by_cases hn : n0 = name
        · rw [hn, hname] at hds
          exact absurd hds (by simp)
        · rw [if_neg hn] at hlk
          exact hc5 name node hlk hname
      · intro name hmem
        simp only [dmem, Bool.or_eq_false_iff, decide_eq_false_iff_not]
          at hmem
        exact hc6 name hmem.2
    · rw [Bool.not_eq_true] at hds
      rw [hds] at h
      simp only [Bool.false_eq_true, if_false] at h
      cases hargs : dlookup cm.cell_args n0 with
      | none => rw [hargs] at h; simp at h
      | some args0 =>
        rw [hargs] at h
        dsimp only at h
        obtain ⟨hc1, hc2, hc3, hc4, hc5, hc6⟩ := ih _ cm' hnd.2 h
        refine ⟨hc1, hc2, hc3, hc4, ?_, ?_⟩
        · intro name node hlk hname
          unfold dlookup at hlk
          by_cases hn : n0 = name
          · rw [if_pos hn] at hlk
            have hrest : dmem rest name = false := by
              rw [← hn]
              by_cases hr : dmem rest n0 = true
              · exact absurd ((dmem_iff_mem_keys rest n0).mp hr) hnd.1
              · exact Bool.not_eq_true _ |>.mp hr
            have := hc6 name hrest
            refine ⟨args0, by rw [← hn]; exact hargs, ?_⟩
            rw [this]
            have hnode : node = nd0 := (Option.some_inj.mp hlk).symm
            subst hnode
            show dlookup (dset cm.cell_args n0 (backfillArgs L node args0))
                name = _
            rw [← hn]
            rw [dlookup_dset_self]
          · rw [if_neg hn] at hlk
            obtain ⟨old, hold, hnew⟩ := hc5 name node hlk hname
            refine ⟨old, ?_, hnew⟩
            rw [← hold]
            show dlookup cm.cell_args name =
              dlookup (dset cm.cell_args n0 (backfillArgs L nd0 args0)) name
            rw [dlookup_dset_ne _ _ _ _ hn]
        · intro name hmem
          simp only [dmem, Bool.or_eq_false_iff, decide_eq_false_iff_not]
            at hmem
          rw [hc6 name hmem.2]
          show dlookup (dset cm.cell_args n0 (backfillArgs L nd0 args0))
              name = dlookup cm.cell_args name
          rw [dlookup_dset_ne _ _ _ _ hmem.1]

/-- C6: for every link produced by `add_link` and every non-dataset node
on it, the node's argument record is back-filled first-writer-wins: the
dimension-key argument is set to the (just appended) link object exactly
when it was previously unset and an already-set value is left unchanged;
the distribution argument — the dist key with a leading `&` stripped, or
`cell_type` otherwise — is set to the link exactly when it was previously
unset and the node's class declares a non-null distribution; every other
entry of the record, and every record not belonging to a node, is
unchanged. -/
theorem addLink_first_writer_wins (cm cm1 cm' : Manager) (l : Link)
    (f t : String) (h1 : linkInit cm f t = .ok (cm1, l))
    (h2 : addLink cm f t = .ok cm') :
    cm'.links = cm.links ++ [l] ∧
    (∀ name node, dlookup l.nodes name = some node →
      dmem cm.datasets name = false →
      ∃ old new, dlookup cm.cell_args name = some old ∧
        dlookup cm'.cell_args name = some new ∧
        dlookup new node.dim_key =
          (if pyGet old node.dim_key = PyVal.none
           then some (PyVal.link cm.links.length)
           else dlookup old node.dim_key) ∧
        (∀ d, node.dist_key = some d → distArgKey d ≠ node.dim_key →
          dlookup new (distArgKey d) =
            (if pyGet old (distArgKey d) = PyVal.none ∧
                node.C.distribution ≠ Option.none
             then some (PyVal.link cm.links.length)
             else dlookup old (distArgKey d))) ∧
        (∀ k2, k2 ≠ node.dim_key →
          (∀ d, node.dist_key = some d → k2 ≠ distArgKey d) →
          dlookup new k2 = dlookup old k2)) ∧
    (∀ name, dmem l.nodes name = false →
      dlookup cm'.cell_args name = dlookup cm.cell_args name) := by
  unfold addLink at h2
  rw [h1] at h2
  dsimp only at h2
  obtain ⟨hnd, hcells, hargs, hds, hcls, hlinks⟩ :=
    linkInit_ok_frames cm cm1 l f t h1
  obtain ⟨hc1, hc2, hc3, hc4, hc5, hc6⟩ :=
    backfillLoop_spec cm.links.length l.nodes cm1 cm' hnd h2
  refine ⟨by rw [hc2, hlinks], ?_, ?_⟩
  · intro name node hlk hname
    have hname1 : dmem cm1.datasets name = false := by rw [hds]; exact hname
    obtain ⟨old, hold, hnew⟩ := hc5 name node hlk hname1
    rw [hargs] at hold
    refine ⟨old, backfillArgs cm.links.length node old, hold, hnew,
      backfillArgs_dim_lookup cm.links.length node old, ?_, ?_⟩
    · intro d hdk hne
      exact backfillArgs_dist_lookup cm.links.length node old d hdk hne
    · intro k2 hk1 hk2
      exact backfillArgs_other_lookup cm.links.length node old k2 hk1 hk2
  · intro name hmem
    rw [hc6 name hmem, hargs]

/-- The manager after `add_link('data.x', 'c.input')` on `cmDataCell`:
the cell's `dim_in` argument has been back-filled with the link. -/
def cmDCAfterAdd : Manager :=
  { cells := []
    cell_args :=
      [("c", [("cell_type", PyVal.str "A"), ("dim_in", PyVal.link 0)])]
    links := [linkDC], datasets := [("data", dsD)]
    classes := [("A", clsIn)] }

/-- The single node of `linkDC`. -/
def nodeDC : Node :=
  { C := clsIn, link_key := "input", dim_key := "dim_in",
    dist_key := Option.none }

/-- Witness for C6: the back-fill description instantiated at the
concrete `add_link('data.x', 'c.input')` run on `cmDataCell`. -/
theorem addLink_first_writer_wins_witness :
    ∃ old new, dlookup cmDataCell.cell_args "c" = some old ∧
      dlookup cmDCAfterAdd.cell_args "c" = some new ∧
      dlookup new nodeDC.dim_key =
        (if pyGet old nodeDC.dim_key = PyVal.none
         then some (PyVal.link cmDataCell.links.length)
         else dlookup old nodeDC.dim_key) ∧
      (∀ d, nodeDC.dist_key = some d → distArgKey d ≠ nodeDC.dim_key →
        dlookup new (distArgKey d) =
          (if pyGet old (distArgKey d) = PyVal.none ∧
              nodeDC.C.distribution ≠ Option.none
           then some (PyVal.link cmDataCell.links.length)
           else dlookup old (distArgKey d))) ∧
      (∀ k2, k2 ≠ nodeDC.dim_key →
        (∀ d, nodeDC.dist_key = some d → k2 ≠ distArgKey d) →
        dlookup new k2 = dlookup old k2) :=
  (addLink_first_writer_wins cmDataCell cmDataCellLinked cmDCAfterAdd linkDC
    "data.x" "c.input" rfl rfl).2.1 "c" nodeDC rfl rfl

/-! ## C8: parameter sharing through the global tparams table -/

/-- State extension: every registered name keeps its handle. -/
def StExt (s1 s2 : TPState) : Prop :=
  ∀ nm h, dlookup s1.tparams nm = some h → dlookup s2.tparams nm = some h

theorem StExt.refl (s : TPState) : StExt s s := fun _ _ h => h

theorem StExt.trans {s1 s2 s3 : TPState} (h1 : StExt s1 s2)
    (h2 : StExt s2 s3) : StExt s1 s3 :=
  fun nm h hl => h2 nm h (h1 nm h hl)

theorem dlookup_append_self {α : Type} (d : List (String × α)) (k : String)
    (v : α) (h : dlookup d k = Option.none) :
    dlookup (d ++ [(k, v)]) k = some v := by
  induction d with
  | nil => simp [dlookup]
  | cons hd t ih =>
    obtain ⟨k₀, v₀⟩ := hd
    by_cases hk : k₀ = k
    · simp [dlookup, hk] at h
    · simp only [List.cons_append, dlookup, hk, if_false] at h ⊢
      exact ih h

theorem registerName_ext (st : TPState) (nm : String) :
    StExt st (registerName st nm).2 := by
  intro nm' h hl
  unfold registerName
  cases hx : dlookup st.tparams nm with
  | some tp => exact hl
  | none =>
    dsimp only
    rw [dlookup_append_single st.tparams nm nm' st.next (by rw [hl]; rfl)]
    exact hl

theorem registerName_post (st : TPState) (nm : String) :
    dlookup (registerName st nm).2.tparams nm = some (registerName st nm).1 := by
  unfold registerName
  cases hx : dlookup st.tparams nm with
  | some tp => exact hx
  | none =>
    dsimp only
    exact dlookup_append_self st.tparams nm st.next hx

theorem registerName_stable (st : TPState) (nm : String) (h : Nat)
    (hl : dlookup st.tparams nm = some h) : registerName st nm = (h, st) := by
  unfold registerName
  rw [hl]

theorem registerIdx_ext (cname k : String) (idxs : List Nat) :
    ∀ st, StExt st (registerIdx cname k idxs st).2.2 := by
  induction idxs with
  | nil => intro st; exact StExt.refl st
  | cons i rest ih =>
    intro st
    exact StExt.trans (registerName_ext st (pName cname (idxKey k i)))
      (ih (registerName st (pName cname (idxKey k i))).2)

theorem setTparamsGo_ext (cname : String) (ps : List (String × PParam)) :
    ∀ st, StExt st (setTparamsGo cname ps st).2.2 := by
  induction ps with
  | nil => intro st; exact StExt.refl st
  | cons hd rest ih =>
    obtain ⟨k, p⟩ := hd
    intro st
    cases p with
    | single =>
      exact StExt.trans (registerName_ext st (pName cname k))
        (ih (registerName st (pName cname k)).2)
    | plist n =>
      exact StExt.trans (registerIdx_ext cname k (List.range n) st)
        (ih (registerIdx cname k (List.range n) st).2.2)

/-- Replaying a list-group registration on any extension of its
post-state returns the same handles and keys and changes nothing. -/
theorem registerIdx_replay (cname k : String) (idxs : List Nat) :
    ∀ st s', StExt (registerIdx cname k idxs st).2.2 s' →
    registerIdx cname k idxs s' =
      ((registerIdx cname k idxs st).1,
       (registerIdx cname k idxs st).2.1, s') := by
  induction idxs with
  | nil => intro st s' _; rfl
  | cons i rest ih =>
    intro st s' hExt
    have hpost : dlookup s'.tparams (pName cname (idxKey k i)) =
        some (registerName st (pName cname (idxKey k i))).1 := by
      refine hExt _ _ ?_
      exact registerIdx_ext cname k rest
        (registerName st (pName cname (idxKey k i))).2 _ _
        (registerName_post st (pName cname (idxKey k i)))
    have hrest := ih (registerName st (pName cname (idxKey k i))).2 s' hExt
    simp only [registerIdx]
    rw [registerName_stable s' _ _ hpost]
    dsimp only
    rw [hrest]

/-- Replaying the whole `set_tparams` loop on any extension of its
post-state returns the identical handles and keys and changes nothing:
every fully-qualified name is already registered, so the first
registrant's handle is returned throughout. -/
theorem setTparamsGo_replay (cname : String) (ps : List (String × PParam)) :
    ∀ st s', StExt (setTparamsGo cname ps st).2.2 s' →
    setTparamsGo cname ps s' =
      ((setTparamsGo cname ps st).1,
       (setTparamsGo cname ps st).2.1, s') := by
  induction ps with
  | nil => intro st s' _; rfl
  | cons hd rest ih =>
    obtain ⟨k, p⟩ := hd
    intro st s' hExt
    cases p with
    | single =>
      have hpost : dlookup s'.tparams (pName cname k) =
          some (registerName st (pName cname k)).1 := by
        refine hExt _ _ ?_
        exact setTparamsGo_ext cname rest
          (registerName st (pName cname k)).2 _ _
          (registerName_post st (pName cname k))
      have hrest := ih (registerName st (pName cname k)).2 s' hExt
      simp only [setTparamsGo]
      rw [registerName_stable s' _ _ hpost]
      dsimp only
      rw [hrest]
    | plist n =>
      have hIdxExt : StExt (registerIdx cname k (List.range n) st).2.2 s' :=
        StExt.trans
          (setTparamsGo_ext cname rest
            (registerIdx cname k (List.range n) st).2.2) hExt
      have hidx := registerIdx_replay cname k (List.range n) st s' hIdxExt
      have hrest := ih (registerIdx cname k (List.range n) st).2.2 s' hExt
      simp only [setTparamsGo]
      rw [hidx]
      dsimp only
      rw [hrest]

/-- C8: re-registering a fully-qualified parameter name returns the
handle registered first: a single registration against a table that
already holds the name returns the stored handle unchanged, and replaying
a cell's entire `set_tparams` (scalar and list-valued groups alike)
returns the identical handles and keys and allocates nothing. -/
theorem tparams_second_registration_shares :
    (∀ (st : TPState) (nm : String) (h : Nat),
      dlookup st.tparams nm = some h → registerName st nm = (h, st)) ∧
    (∀ (c : Cell) (st : TPState),
      setTparams (setTparams c st).1 (setTparams c st).2 = setTparams c st) := by
  constructor
  · exact registerName_stable
  · intro c st
    cases c with
    | mk nm ps cs np ncp tp pk hs =>
      have hrep := setTparamsGo_replay nm ps st
        (setTparamsGo nm ps st).2.2 (StExt.refl _)
      show setTparams
        (Cell.mk nm ps cs np ncp tp (setTparamsGo nm ps st).1
          (setTparamsGo nm ps st).2.1) (setTparamsGo nm ps st).2.2 = _
      unfold setTparams
      dsimp only [Cell.name, Cell.params, Cell.comps, Cell.n_params,
        Cell.n_component_params, Cell.total_params]
      rw [hrep]

/-- A concrete cell with one list-valued and one scalar parameter group,
before `set_tparams`. -/
def cellW : Cell :=
  Cell.mk "cell" [("W", PParam.plist 2), ("b", PParam.single)] [] 0 0 0 [] []

/-- The empty parameter table. -/
def st0 : TPState := { tparams := [], next := 0 }

/-- Witness for C8: a second registration of `cell.W` returns the first
handle, and replaying `set_tparams` of a concrete cell with scalar and
list-valued groups is the identity. -/
theorem tparams_second_registration_shares_witness :
    registerName { tparams := [("cell.W", 0)], next := 1 } "cell.W" =
      (0, { tparams := [("cell.W", 0)], next := 1 }) ∧
    setTparams (setTparams cellW st0).1 (setTparams cellW st0).2 =
      setTparams cellW st0 :=
  ⟨tparams_second_registration_shares.1
      { tparams := [("cell.W", 0)], next := 1 } "cell.W" 0 rfl,
   tparams_second_registration_shares.2 cellW st0⟩

/-! ## C7: the total_params invariant -/

theorem foldl_add_sum {α : Type} (f : α → Nat) :
    ∀ (l : List α) (a : Nat),
      l.foldl (fun acc x => acc + f x) a = a + (l.map f).sum := by
  intro l
  induction l with
  | nil => intro a; simp
  | cons x xs ih =>
    intro a
    simp [List.foldl, ih, Nat.add_assoc]

/-- The size contributed by one parameter group to `n_params`: a
list-valued group counts by its length, everything else counts one. -/
def PParam.groupSize : PParam → Nat
  | PParam.single => 1
  | PParam.plist n => n

/-- C7: immediately after construction, `total_params` equals `n_params`
plus `n_component_params`; `n_params` is the sum over the parameter
groups, list-valued groups counting by length; `n_component_params` is
the sum of `total_params` over the direct sub-components, list-valued
component groups contributing every member; and the only embedded
operation that rewrites a built cell, `set_tparams`, leaves all three
counts unchanged. -/
theorem total_params_decomposition (name : String)
    (params : List (String × PParam)) (comps : List (String × CompVal))
    (st : TPState) :
    ((initCell name params comps st).1.total_params =
      (initCell name params comps st).1.n_params +
      (initCell name params comps st).1.n_component_params) ∧
    ((initCell name params comps st).1.n_params =
      (params.map (fun kv => kv.2.groupSize)).sum) ∧
    ((initCell name params comps st).1.n_component_params =
      (comps.map (fun kv => kv.2.totalOf)).sum) ∧
    (∀ st' : TPState,
      (setTparams (initCell name params comps st).1 st').1.total_params =
        (initCell name params comps st).1.total_params ∧
      (setTparams (initCell name params comps st).1 st').1.n_params =
        (initCell name params comps st).1.n_params ∧
      (setTparams (initCell name params comps st).1 st').1.n_component_params =
        (initCell name params comps st).1.n_component_params) := by
  refine ⟨rfl, ?_, ?_, ?_⟩
  · show countParams params = _
    unfold countParams
    have := foldl_add_sum (fun kv : String × PParam => kv.2.groupSize) params 0
    rw [Nat.zero_add] at this
    rw [← this]
    rfl
  · show countComponentParams comps = _
    unfold countComponentParams
    have := foldl_add_sum
      (fun kv : String × CompVal => kv.2.totalOf) comps 0
    rw [Nat.zero_add] at this
    exact this
  · intro st'
    exact ⟨rfl, rfl, rfl⟩

/-! ## C9: get_params on a cell with a list-valued parameter group -/

/-- The cell built with a single list-valued parameter group `W` of two
arrays (`initCell` computes the counts and runs `set_tparams` on an empty
table). -/
def cellBad : Cell :=
  (initCell "cell" [("W", PParam.plist 2)] [] st0).1

/-- C9: the claim relies on `select_params(None, *get_params(c))`
returning the cell's own handles for every built cell.  On the code,
`get_params` cannot even produce the flattened handle list for a cell with
a list-valued parameter group: `set_tparams` stores the handle list under
the base key `W` while appending the decorated names `W[0]`, `W[1]` to
`param_keys`, and `get_params` line 401 reads `self.__dict__[k]` for the
decorated names, raising `KeyError('W[0]')`.  The first conjuncts record
that the counting side (`n_params = 2`) and the stored state are exactly
as `set_tparams` left them. -/
theorem getParams_list_param_key_error :
    cellBad.n_params = 2 ∧
    cellBad.param_keys = ["W[0]", "W[1]"] ∧
    cellBad.handles = [("W", HVal.hs [0, 1])] ∧
    Cell.getParams cellBad = .error (.keyError "W[0]") :=
  ⟨rfl, rfl, rfl, rfl⟩
